import Mathlib

/-!
Shallow embedding of the streaming covariance accumulator
(`src/src/moments/covariance.rs`, struct `CoVariance`) over exact
rational arithmetic.  The `Mean` collaborator and the `approx_from`
conversion are not part of the sources; they are modelled from the
external-collaborator contract stated in the specification (§6).
-/

/-- Modelled from the spec: the `RunningMean` collaborator (`Mean` in the
Rust code) is not under `src/`.  Per the §6 contract it tracks a count and
a running mean (0 when empty). -/
structure Mean where
  avg : ℚ
  n : ℕ
  deriving DecidableEq, Repr

/-- Modelled from the spec: `Mean::new()` starts with count 0 and mean 0. -/
def Mean.new : Mean := { avg := 0, n := 0 }

/-- Modelled from the spec: the "increment count only" operation. -/
def Mean.increment (m : Mean) : Mean := { avg := m.avg, n := m.n + 1 }

/-- Modelled from the spec: the "add pre-divided delta" operation, which
applies exactly `mean += delta` after the count bump. -/
def Mean.add_inner (m : Mean) (delta : ℚ) : Mean :=
  { avg := m.avg + delta, n := m.n }

/-- Modelled from the spec: the current count. -/
def Mean.len (m : Mean) : ℕ := m.n

/-- Modelled from the spec: the current mean (0 when empty, since the
mean field starts at 0 and is only changed by `add_inner`). -/
def Mean.mean (m : Mean) : ℚ := m.avg

/-- Modelled from the spec: emptiness of a single-variable tracker. -/
def Mean.is_empty (m : Mean) : Bool := m.n == 0

/-- Modelled from the spec: `f64::approx_from` on an unsigned count is a
trusted narrowing conversion "assumed always to succeed"; over exact
arithmetic it is the canonical embedding of the count. -/
def approx_from (n : ℕ) : Option ℚ := some (n : ℚ)

/-- `struct CoVariance` from `covariance.rs`: two mean trackers plus the
three scaled second-moment accumulators. -/
structure CoVariance where
  avg_x : Mean
  avg_y : Mean
  sum_2 : ℚ
  sum_2_x : ℚ
  sum_2_y : ℚ
  deriving DecidableEq, Repr

/-- `CoVariance::new`. -/
def CoVariance.new : CoVariance :=
  { avg_x := Mean.new, avg_y := Mean.new, sum_2 := 0, sum_2_x := 0, sum_2_y := 0 }

/-- `CoVariance::increment`: bump both trackers, nothing else. -/
def CoVariance.increment (c : CoVariance) : CoVariance :=
  { c with avg_x := c.avg_x.increment, avg_y := c.avg_y.increment }

/-- `CoVariance::add_inner`: fold in pre-divided deltas, assuming the
count was already incremented.  `n` is read from the X tracker. -/
def CoVariance.add_inner (c : CoVariance) (delta_x delta_y : ℚ) : CoVariance :=
  let n : ℚ := (c.avg_x.len : ℚ)
  let ax := c.avg_x.add_inner delta_x
  let ay := c.avg_y.add_inner delta_y
  let n1 := n * (n - 1)
  { avg_x := ax, avg_y := ay,
    sum_2 := c.sum_2 + delta_x * delta_y * n1,
    sum_2_x := c.sum_2_x + delta_x * delta_x * n1,
    sum_2_y := c.sum_2_y + delta_y * delta_y * n1 }

/-- `CoVariance::is_empty`. -/
def CoVariance.is_empty (c : CoVariance) : Bool :=
  c.avg_x.is_empty || c.avg_y.is_empty

/-- `CoVariance::mean_x`. -/
def CoVariance.mean_x (c : CoVariance) : ℚ := c.avg_x.mean

/-- `CoVariance::mean_y`. -/
def CoVariance.mean_y (c : CoVariance) : ℚ := c.avg_y.mean

/-- `CoVariance::len`. -/
def CoVariance.len (c : CoVariance) : ℕ := c.avg_x.len

/-- `CoVariance::sample_covariance`. -/
def CoVariance.sample_covariance (c : CoVariance) : ℚ :=
  let n := c.avg_x.len
  if n < 2 then 0 else c.sum_2 / ((n - 1 : ℕ) : ℚ)

/-- `CoVariance::sample_variance_x`. -/
def CoVariance.sample_variance_x (c : CoVariance) : ℚ :=
  let n := c.avg_x.len
  if n < 2 then 0 else c.sum_2_x / ((n - 1 : ℕ) : ℚ)

/-- `CoVariance::sample_variance_y`: note the count is read from the Y
tracker here, exactly as in the source. -/
def CoVariance.sample_variance_y (c : CoVariance) : ℚ :=
  let n := c.avg_y.len
  if n < 2 then 0 else c.sum_2_y / ((n - 1 : ℕ) : ℚ)

/-- `CoVariance::add`: increment first, then deltas against the
pre-update means with the post-increment count as divisor. -/
def CoVariance.add (c : CoVariance) (sample_x sample_y : ℚ) : CoVariance :=
  let c1 := c.increment
  let delta_x := (sample_x - c1.avg_x.mean) / (c1.avg_x.len : ℚ)
  let delta_y := (sample_y - c1.avg_y.mean) / (c1.avg_y.len : ℚ)
  c1.add_inner delta_x delta_y

/-- Feed a whole list of pairs into an accumulator, one `add` per pair. -/
def addAll (c : CoVariance) (l : List (ℚ × ℚ)) : CoVariance :=
  l.foldl (fun a p => a.add p.1 p.2) c

/-- Sum of the X coordinates of a list of samples. -/
def sumX (l : List (ℚ × ℚ)) : ℚ := (l.map Prod.fst).sum

/-- Sum of the Y coordinates. -/
def sumY (l : List (ℚ × ℚ)) : ℚ := (l.map Prod.snd).sum

/-- Sum of the products x_i * y_i. -/
def sumXY (l : List (ℚ × ℚ)) : ℚ := (l.map (fun p => p.1 * p.2)).sum

/-- Sum of the squares x_i * x_i. -/
def sumXX (l : List (ℚ × ℚ)) : ℚ := (l.map (fun p => p.1 * p.1)).sum

/-- Sum of the squares y_i * y_i. -/
def sumYY (l : List (ℚ × ℚ)) : ℚ := (l.map (fun p => p.2 * p.2)).sum

/-- Arithmetic mean of the X coordinates (0 for the empty list, since
rational division by zero is 0). -/
def meanX (l : List (ℚ × ℚ)) : ℚ := sumX l / (l.length : ℚ)

/-- Arithmetic mean of the Y coordinates. -/
def meanY (l : List (ℚ × ℚ)) : ℚ := sumY l / (l.length : ℚ)

/-- The closed-form co-moment: sum over i of (x_i - mean x)(y_i - mean y). -/
def comoment (l : List (ℚ × ℚ)) : ℚ :=
  (l.map (fun p => (p.1 - meanX l) * (p.2 - meanY l))).sum

/-- The closed-form sum of squared X deviations. -/
def sqDevX (l : List (ℚ × ℚ)) : ℚ :=
  (l.map (fun p => (p.1 - meanX l) ^ 2)).sum

/-- The closed-form sum of squared Y deviations. -/
def sqDevY (l : List (ℚ × ℚ)) : ℚ :=
  (l.map (fun p => (p.2 - meanY l) ^ 2)).sum

/-- `CoVariance::add_inner` with the fallible `approx_from` conversion
left explicit: `none` models the panic of `.unwrap()` on a failed
conversion. -/
def CoVariance.add_innerChecked (c : CoVariance) (delta_x delta_y : ℚ) :
    Option CoVariance :=
  match approx_from c.avg_x.len with
  | none => none
  | some n =>
      let ax := c.avg_x.add_inner delta_x
      let ay := c.avg_y.add_inner delta_y
      let n1 := n * (n - 1)
      some { avg_x := ax, avg_y := ay,
             sum_2 := c.sum_2 + delta_x * delta_y * n1,
             sum_2_x := c.sum_2_x + delta_x * delta_x * n1,
             sum_2_y := c.sum_2_y + delta_y * delta_y * n1 }

/-- `CoVariance::add` with the two fallible conversions left explicit. -/
def CoVariance.addChecked (c : CoVariance) (sample_x sample_y : ℚ) :
    Option CoVariance :=
  let c1 := c.increment
  match approx_from c1.avg_x.len, approx_from c1.avg_y.len with
  | some nx, some ny =>
      c1.add_innerChecked ((sample_x - c1.avg_x.mean) / nx)
        ((sample_y - c1.avg_y.mean) / ny)
  | _, _ => none

/-- `CoVariance::sample_covariance` with the fallible conversion left
explicit. -/
def CoVariance.sample_covarianceChecked (c : CoVariance) : Option ℚ :=
  let n := c.avg_x.len
  if n < 2 then some 0
  else
    match approx_from (n - 1) with
    | none => none
    | some d => some (c.sum_2 / d)

/-- `CoVariance::sample_variance_x` with the fallible conversion left
explicit. -/
def CoVariance.sample_variance_xChecked (c : CoVariance) : Option ℚ :=
  let n := c.avg_x.len
  if n < 2 then some 0
  else
    match approx_from (n - 1) with
    | none => none
    | some d => some (c.sum_2_x / d)

/-- `CoVariance::sample_variance_y` with the fallible conversion left
explicit. -/
def CoVariance.sample_variance_yChecked (c : CoVariance) : Option ℚ :=
  let n := c.avg_y.len
  if n < 2 then some 0
  else
    match approx_from (n - 1) with
    | none => none
    | some d => some (c.sum_2_y / d)

/-! ### Helper lemmas about `addAll` and the list sums -/

theorem addAll_concat (l : List (ℚ × ℚ)) (p : ℚ × ℚ) :
    addAll CoVariance.new (l ++ [p]) = (addAll CoVariance.new l).add p.1 p.2 := by
  simp [addAll, List.foldl_append]

theorem sumX_concat (l : List (ℚ × ℚ)) (p : ℚ × ℚ) :
    sumX (l ++ [p]) = sumX l + p.1 := by
  simp [sumX]

theorem sumY_concat (l : List (ℚ × ℚ)) (p : ℚ × ℚ) :
    sumY (l ++ [p]) = sumY l + p.2 := by
  simp [sumY]

theorem sumXY_concat (l : List (ℚ × ℚ)) (p : ℚ × ℚ) :
    sumXY (l ++ [p]) = sumXY l + p.1 * p.2 := by
  simp [sumXY]

theorem sumXX_concat (l : List (ℚ × ℚ)) (p : ℚ × ℚ) :
    sumXX (l ++ [p]) = sumXX l + p.1 * p.1 := by
  simp [sumXX]

theorem sumYY_concat (l : List (ℚ × ℚ)) (p : ℚ × ℚ) :
    sumYY (l ++ [p]) = sumYY l + p.2 * p.2 := by
  simp [sumYY]

/-- The Welford invariant: after feeding any list of pairs into a fresh
accumulator, the counts are the list length, the running means are the
raw-sum means, and the three second-moment accumulators carry the
centered sums in their raw-sum form. -/
theorem addAll_state (l : List (ℚ × ℚ)) :
    (addAll CoVariance.new l).avg_x.n = l.length ∧
    (addAll CoVariance.new l).avg_y.n = l.length ∧
    (addAll CoVariance.new l).avg_x.avg = sumX l / (l.length : ℚ) ∧
    (addAll CoVariance.new l).avg_y.avg = sumY l / (l.length : ℚ) ∧
    (addAll CoVariance.new l).sum_2 = sumXY l - sumX l * sumY l / (l.length : ℚ) ∧
    (addAll CoVariance.new l).sum_2_x = sumXX l - sumX l * sumX l / (l.length : ℚ) ∧
    (addAll CoVariance.new l).sum_2_y = sumYY l - sumY l * sumY l / (l.length : ℚ) := by
  induction l using List.reverseRecOn with
  | nil =>
      simp [addAll, CoVariance.new, Mean.new, sumX, sumY, sumXY, sumXX, sumYY]
  | append_singleton l p ih =>
      obtain ⟨hnx, hny, hax, hay, h2, h2x, h2y⟩ := ih
      rw [addAll_concat]
      simp only [CoVariance.add, CoVariance.increment, CoVariance.add_inner,
        Mean.increment, Mean.add_inner, Mean.mean, Mean.len,
        sumX_concat, sumY_concat, sumXY_concat, sumXX_concat, sumYY_concat,
        List.length_append, List.length_singleton,
        hnx, hny, hax, hay, h2, h2x, h2y]
      rcases Nat.eq_zero_or_pos l.length with h0 | hpos
      · have hl : l = [] := List.length_eq_zero.mp h0
        subst hl
        simp [sumX, sumY, sumXY, sumXX, sumYY]
      · have hn : (l.length : ℚ) ≠ 0 := Nat.cast_ne_zero.mpr hpos.ne'
        have hn1 : (l.length : ℚ) + 1 ≠ 0 := by positivity
        push_cast
        refine ⟨trivial, trivial, ?_, ?_, ?_, ?_, ?_⟩ <;> (field_simp; ring)

theorem sumX_cons (q : ℚ × ℚ) (t : List (ℚ × ℚ)) : sumX (q :: t) = q.1 + sumX t := by
  simp [sumX]

theorem sumY_cons (q : ℚ × ℚ) (t : List (ℚ × ℚ)) : sumY (q :: t) = q.2 + sumY t := by
  simp [sumY]

theorem sumXY_cons (q : ℚ × ℚ) (t : List (ℚ × ℚ)) :
    sumXY (q :: t) = q.1 * q.2 + sumXY t := by
  simp [sumXY]

theorem sumXX_cons (q : ℚ × ℚ) (t : List (ℚ × ℚ)) :
    sumXX (q :: t) = q.1 * q.1 + sumXX t := by
  simp [sumXX]

theorem sumYY_cons (q : ℚ × ℚ) (t : List (ℚ × ℚ)) :
    sumYY (q :: t) = q.2 * q.2 + sumYY t := by
  simp [sumYY]

/-- Shift identity: a centered cross-product sum expands into the raw
sums, for any centering constants. -/
theorem sum_centered_prod (l : List (ℚ × ℚ)) (a b : ℚ) :
    (l.map (fun p => (p.1 - a) * (p.2 - b))).sum
      = sumXY l - b * sumX l - a * sumY l + (l.length : ℚ) * (a * b) := by
  induction l with
  | nil => simp [sumXY, sumX, sumY]
  | cons q t ih =>
      simp only [List.map_cons, List.sum_cons, ih, sumXY_cons, sumX_cons,
        sumY_cons, List.length_cons]
      push_cast
      ring

/-- Shift identity for squared X deviations. -/
theorem sum_centered_sq_x (l : List (ℚ × ℚ)) (a : ℚ) :
    (l.map (fun p => (p.1 - a) ^ 2)).sum
      = sumXX l - 2 * a * sumX l + (l.length : ℚ) * a ^ 2 := by
  induction l with
  | nil => simp [sumXX, sumX]
  | cons q t ih =>
      simp only [List.map_cons, List.sum_cons, ih, sumXX_cons, sumX_cons,
        List.length_cons]
      push_cast
      ring

/-- Shift identity for squared Y deviations. -/
theorem sum_centered_sq_y (l : List (ℚ × ℚ)) (a : ℚ) :
    (l.map (fun p => (p.2 - a) ^ 2)).sum
      = sumYY l - 2 * a * sumY l + (l.length : ℚ) * a ^ 2 := by
  induction l with
  | nil => simp [sumYY, sumY]
  | cons q t ih =>
      simp only [List.map_cons, List.sum_cons, ih, sumYY_cons, sumY_cons,
        List.length_cons]
      push_cast
      ring

/-- The mean-centered co-moment equals its raw-sum form (nonempty lists). -/
theorem comoment_closed (l : List (ℚ × ℚ)) (h : l.length ≠ 0) :
    comoment l = sumXY l - sumX l * sumY l / (l.length : ℚ) := by
  have hn : (l.length : ℚ) ≠ 0 := Nat.cast_ne_zero.mpr h
  unfold comoment meanX meanY
  rw [sum_centered_prod]
  field_simp
  ring

/-- The mean-centered sum of squared X deviations equals its raw-sum form. -/
theorem sqDevX_closed (l : List (ℚ × ℚ)) (h : l.length ≠ 0) :
    sqDevX l = sumXX l - sumX l * sumX l / (l.length : ℚ) := by
  have hn : (l.length : ℚ) ≠ 0 := Nat.cast_ne_zero.mpr h
  unfold sqDevX meanX
  rw [sum_centered_sq_x]
  field_simp
  ring

/-- The mean-centered sum of squared Y deviations equals its raw-sum form. -/
theorem sqDevY_closed (l : List (ℚ × ℚ)) (h : l.length ≠ 0) :
    sqDevY l = sumYY l - sumY l * sumY l / (l.length : ℚ) := by
  have hn : (l.length : ℚ) ≠ 0 := Nat.cast_ne_zero.mpr h
  unfold sqDevY meanY
  rw [sum_centered_sq_y]
  field_simp
  ring

/-! ### Claim theorems -/

/-- C1: for n >= 2 added pairs, `sample_covariance` equals the
Bessel-corrected closed form `comoment / (n - 1)` over exact arithmetic;
for n < 2 it returns 0. -/
theorem C1_sample_covariance_closed_form (l : List (ℚ × ℚ)) :
    (2 ≤ l.length →
      (addAll CoVariance.new l).sample_covariance
        = comoment l / ((l.length : ℚ) - 1)) ∧
    (l.length < 2 → (addAll CoVariance.new l).sample_covariance = 0) := by
  obtain ⟨hnx, hny, hax, hay, h2, h2x, h2y⟩ := addAll_state l
  constructor
  · intro h
    have hcond : ¬ l.length < 2 := by omega
    have hcast : ((l.length - 1 : ℕ) : ℚ) = (l.length : ℚ) - 1 := by
      rw [Nat.cast_sub (by omega)]
      norm_num
    simp only [CoVariance.sample_covariance, Mean.len, hnx, if_neg hcond]
    rw [h2, comoment_closed l (by omega), hcast]
  · intro h
    simp [CoVariance.sample_covariance, Mean.len, hnx, h]

/-- Witness for C1 at the pairs (1,2),(3,5) and at the singleton (1,2). -/
theorem C1_sample_covariance_closed_form_witness :
    (addAll CoVariance.new [(1, 2), (3, 5)]).sample_covariance
        = comoment [(1, 2), (3, 5)] / (((2 : ℕ) : ℚ) - 1) ∧
    (addAll CoVariance.new [(1, 2)]).sample_covariance = 0 :=
  ⟨(C1_sample_covariance_closed_form [(1, 2), (3, 5)]).1 (by simp),
   (C1_sample_covariance_closed_form [(1, 2)]).2 (by simp)⟩

/-- C2: for n >= 2 added pairs, the two sample variances equal the
closed forms `sqDevX / (n - 1)` and `sqDevY / (n - 1)` over exact
arithmetic; for n < 2 both return 0. -/
theorem C2_sample_variances_closed_form (l : List (ℚ × ℚ)) :
    (2 ≤ l.length →
      (addAll CoVariance.new l).sample_variance_x
          = sqDevX l / ((l.length : ℚ) - 1) ∧
      (addAll CoVariance.new l).sample_variance_y
          = sqDevY l / ((l.length : ℚ) - 1)) ∧
    (l.length < 2 →
      (addAll CoVariance.new l).sample_variance_x = 0 ∧
      (addAll CoVariance.new l).sample_variance_y = 0) := by
  obtain ⟨hnx, hny, hax, hay, h2, h2x, h2y⟩ := addAll_state l
  constructor
  · intro h
    have hcond : ¬ l.length < 2 := by omega
    have hcast : ((l.length - 1 : ℕ) : ℚ) = (l.length : ℚ) - 1 := by
      rw [Nat.cast_sub (by omega)]
      norm_num
    constructor
    · simp only [CoVariance.sample_variance_x, Mean.len, hnx, if_neg hcond]
      rw [h2x, sqDevX_closed l (by omega), hcast]
    · simp only [CoVariance.sample_variance_y, Mean.len, hny, if_neg hcond]
      rw [h2y, sqDevY_closed l (by omega), hcast]
  · intro h
    constructor
    · simp [CoVariance.sample_variance_x, Mean.len, hnx, h]
    · simp [CoVariance.sample_variance_y, Mean.len, hny, h]

/-- Witness for C2 at the pairs (1,2),(3,5) and at the singleton (1,2). -/
theorem C2_sample_variances_closed_form_witness :
    ((addAll CoVariance.new [(1, 2), (3, 5)]).sample_variance_x
        = sqDevX [(1, 2), (3, 5)] / (((2 : ℕ) : ℚ) - 1) ∧
     (addAll CoVariance.new [(1, 2), (3, 5)]).sample_variance_y
        = sqDevY [(1, 2), (3, 5)] / (((2 : ℕ) : ℚ) - 1)) ∧
    ((addAll CoVariance.new [(1, 2)]).sample_variance_x = 0 ∧
     (addAll CoVariance.new [(1, 2)]).sample_variance_y = 0) :=
  ⟨(C2_sample_variances_closed_form [(1, 2), (3, 5)]).1 (by simp),
   (C2_sample_variances_closed_form [(1, 2)]).2 (by simp)⟩

/-- C3: one `add(x, y)` call increments both counters, computes each
delta from the pre-update mean divided by the post-increment count,
adds each delta to its running mean, and folds `delta*delta*n1` terms
with `n1 = n*(n-1)` into the three second-moment sums. -/
theorem C3_add_step (c : CoVariance) (x y : ℚ) (h : c.avg_x.n = c.avg_y.n) :
    c.add x y =
      { avg_x := { avg := c.avg_x.avg + (x - c.avg_x.avg) / ((c.avg_x.n : ℚ) + 1),
                   n := c.avg_x.n + 1 },
        avg_y := { avg := c.avg_y.avg + (y - c.avg_y.avg) / ((c.avg_x.n : ℚ) + 1),
                   n := c.avg_y.n + 1 },
        sum_2 := c.sum_2
          + (x - c.avg_x.avg) / ((c.avg_x.n : ℚ) + 1)
            * ((y - c.avg_y.avg) / ((c.avg_x.n : ℚ) + 1))
            * (((c.avg_x.n : ℚ) + 1) * (((c.avg_x.n : ℚ) + 1) - 1)),
        sum_2_x := c.sum_2_x
          + (x - c.avg_x.avg) / ((c.avg_x.n : ℚ) + 1)
            * ((x - c.avg_x.avg) / ((c.avg_x.n : ℚ) + 1))
            * (((c.avg_x.n : ℚ) + 1) * (((c.avg_x.n : ℚ) + 1) - 1)),
        sum_2_y := c.sum_2_y
          + (y - c.avg_y.avg) / ((c.avg_x.n : ℚ) + 1)
            * ((y - c.avg_y.avg) / ((c.avg_x.n : ℚ) + 1))
            * (((c.avg_x.n : ℚ) + 1) * (((c.avg_x.n : ℚ) + 1) - 1)) } := by
  simp only [CoVariance.add, CoVariance.increment, CoVariance.add_inner,
    Mean.increment, Mean.add_inner, Mean.mean, Mean.len, ← h]
  push_cast
  rfl

/-- Witness for C3: a single step from the fresh accumulator. -/
theorem C3_add_step_witness :
    CoVariance.new.add 1 2 =
      { avg_x := { avg := 1, n := 1 }, avg_y := { avg := 2, n := 1 },
        sum_2 := 0, sum_2_x := 0, sum_2_y := 0 } := by
  rw [C3_add_step CoVariance.new 1 2 rfl]
  norm_num [CoVariance.new, Mean.new]

/-- C4: after one `add(a, b)` on a fresh accumulator, the count is 1, it
is nonempty, the means are the two samples, and all three second-order
statistics are 0. -/
theorem C4_single_sample (a b : ℚ) :
    (CoVariance.new.add a b).len = 1 ∧
    (CoVariance.new.add a b).is_empty = false ∧
    (CoVariance.new.add a b).mean_x = a ∧
    (CoVariance.new.add a b).mean_y = b ∧
    (CoVariance.new.add a b).sample_variance_x = 0 ∧
    (CoVariance.new.add a b).sample_variance_y = 0 ∧
    (CoVariance.new.add a b).sample_covariance = 0 := by
  simp [CoVariance.add, CoVariance.increment, CoVariance.add_inner,
    CoVariance.new, Mean.new, Mean.increment, Mean.add_inner, Mean.mean,
    Mean.len, CoVariance.len, CoVariance.is_empty, Mean.is_empty,
    CoVariance.mean_x, CoVariance.mean_y, CoVariance.sample_variance_x,
    CoVariance.sample_variance_y, CoVariance.sample_covariance]

/-- C5: a fresh accumulator is empty, has count 0, and all its
statistics are 0. -/
theorem C5_empty_state :
    CoVariance.new.len = 0 ∧
    CoVariance.new.is_empty = true ∧
    CoVariance.new.mean_x = 0 ∧
    CoVariance.new.mean_y = 0 ∧
    CoVariance.new.sample_covariance = 0 ∧
    CoVariance.new.sample_variance_x = 0 ∧
    CoVariance.new.sample_variance_y = 0 := by
  simp [CoVariance.new, Mean.new, CoVariance.len, Mean.len,
    CoVariance.is_empty, Mean.is_empty, CoVariance.mean_x, CoVariance.mean_y,
    Mean.mean, CoVariance.sample_covariance, CoVariance.sample_variance_x,
    CoVariance.sample_variance_y]

theorem diag_sums (l : List (ℚ × ℚ)) (h : ∀ p ∈ l, p.1 = p.2) :
    sumX l = sumY l ∧ sumXY l = sumXX l ∧ sumXY l = sumYY l := by
  induction l with
  | nil => simp [sumX, sumY, sumXY, sumXX, sumYY]
  | cons q t ih =>
      obtain ⟨h1, h2, h3⟩ := ih (fun p hp => h p (List.mem_cons_of_mem q hp))
      have hq : q.1 = q.2 := h q (List.mem_cons_self q t)
      refine ⟨?_, ?_, ?_⟩
      · rw [sumX_cons, sumY_cons, h1, hq]
      · rw [sumXY_cons, sumXX_cons, h2, hq]
      · rw [sumXY_cons, sumYY_cons, h3, hq]

/-- C6: when every added pair has equal coordinates, the sample
covariance coincides with both sample variances. -/
theorem C6_diagonal (l : List (ℚ × ℚ)) (h : ∀ p ∈ l, p.1 = p.2) :
    (addAll CoVariance.new l).sample_covariance
        = (addAll CoVariance.new l).sample_variance_x ∧
    (addAll CoVariance.new l).sample_variance_x
        = (addAll CoVariance.new l).sample_variance_y := by
  obtain ⟨h1, h2, h3⟩ := diag_sums l h
  obtain ⟨hnx, hny, hax, hay, hc2, hc2x, hc2y⟩ := addAll_state l
  have e1 : (addAll CoVariance.new l).sum_2 = (addAll CoVariance.new l).sum_2_x := by
    rw [hc2, hc2x, h2, ← h1]
  have e2 : (addAll CoVariance.new l).sum_2_x = (addAll CoVariance.new l).sum_2_y := by
    rw [hc2x, hc2y, ← h2, h3, h1]
  constructor
  · simp [CoVariance.sample_covariance, CoVariance.sample_variance_x,
      Mean.len, hnx, e1]
  · simp [CoVariance.sample_variance_x, CoVariance.sample_variance_y,
      Mean.len, hnx, hny, e2]

/-- Witness for C6 on the diagonal pairs (1,1),(2,2). -/
theorem C6_diagonal_witness :
    (addAll CoVariance.new [(1, 1), (2, 2)]).sample_covariance
        = (addAll CoVariance.new [(1, 1), (2, 2)]).sample_variance_x ∧
    (addAll CoVariance.new [(1, 1), (2, 2)]).sample_variance_x
        = (addAll CoVariance.new [(1, 1), (2, 2)]).sample_variance_y :=
  C6_diagonal [(1, 1), (2, 2)] (by simp)

/-- C7: feeding any permutation of the same pairs into a fresh
accumulator yields the same final means, variances, and covariance
(exact arithmetic). -/
theorem C7_order_invariance (l1 l2 : List (ℚ × ℚ)) (h : l1.Perm l2) :
    (addAll CoVariance.new l1).mean_x = (addAll CoVariance.new l2).mean_x ∧
    (addAll CoVariance.new l1).mean_y = (addAll CoVariance.new l2).mean_y ∧
    (addAll CoVariance.new l1).sample_variance_x
        = (addAll CoVariance.new l2).sample_variance_x ∧
    (addAll CoVariance.new l1).sample_variance_y
        = (addAll CoVariance.new l2).sample_variance_y ∧
    (addAll CoVariance.new l1).sample_covariance
        = (addAll CoVariance.new l2).sample_covariance := by
  have hlen : l1.length = l2.length := h.length_eq
  have hsx : sumX l1 = sumX l2 := (h.map Prod.fst).sum_eq
  have hsy : sumY l1 = sumY l2 := (h.map Prod.snd).sum_eq
  have hsxy : sumXY l1 = sumXY l2 := by
    unfold sumXY
    exact (h.map _).sum_eq
  have hsxx : sumXX l1 = sumXX l2 := by
    unfold sumXX
    exact (h.map _).sum_eq
  have hsyy : sumYY l1 = sumYY l2 := by
    unfold sumYY
    exact (h.map _).sum_eq
  obtain ⟨hnx1, hny1, hax1, hay1, h21, h2x1, h2y1⟩ := addAll_state l1
  obtain ⟨hnx2, hny2, hax2, hay2, h22, h2x2, h2y2⟩ := addAll_state l2
  refine ⟨?_, ?_, ?_, ?_, ?_⟩
  · rw [CoVariance.mean_x, CoVariance.mean_x, Mean.mean, Mean.mean,
      hax1, hax2, hsx, hlen]
  · rw [CoVariance.mean_y, CoVariance.mean_y, Mean.mean, Mean.mean,
      hay1, hay2, hsy, hlen]
  · simp only [CoVariance.sample_variance_x, Mean.len, hnx1, hnx2,
      h2x1, h2x2, hsx, hsxx, hlen]
  · simp only [CoVariance.sample_variance_y, Mean.len, hny1, hny2,
      h2y1, h2y2, hsy, hsyy, hlen]
  · simp only [CoVariance.sample_covariance, Mean.len, hnx1, hnx2,
      h21, h22, hsx, hsy, hsxy, hlen]

/-- Witness for C7: swapping the two pairs (1,2) and (3,4). -/
theorem C7_order_invariance_witness :
    (addAll CoVariance.new [(1, 2), (3, 4)]).mean_x
        = (addAll CoVariance.new [(3, 4), (1, 2)]).mean_x ∧
    (addAll CoVariance.new [(1, 2), (3, 4)]).mean_y
        = (addAll CoVariance.new [(3, 4), (1, 2)]).mean_y ∧
    (addAll CoVariance.new [(1, 2), (3, 4)]).sample_variance_x
        = (addAll CoVariance.new [(3, 4), (1, 2)]).sample_variance_x ∧
    (addAll CoVariance.new [(1, 2), (3, 4)]).sample_variance_y
        = (addAll CoVariance.new [(3, 4), (1, 2)]).sample_variance_y ∧
    (addAll CoVariance.new [(1, 2), (3, 4)]).sample_covariance
        = (addAll CoVariance.new [(3, 4), (1, 2)]).sample_covariance :=
  C7_order_invariance [(1, 2), (3, 4)] [(3, 4), (1, 2)]
    (List.Perm.swap (3, 4) (1, 2) [])

/-- C8: every fallible conversion site succeeds: the Option-level
versions of `add`, `add_inner`, and the three statistics agree with the
total functions on every state, so no `.unwrap()` panic branch is
reachable; the remaining operations are total by construction. -/
theorem C8_total (c : CoVariance) (x y dx dy : ℚ) :
    c.addChecked x y = some (c.add x y) ∧
    c.add_innerChecked dx dy = some (c.add_inner dx dy) ∧
    c.sample_covarianceChecked = some c.sample_covariance ∧
    c.sample_variance_xChecked = some c.sample_variance_x ∧
    c.sample_variance_yChecked = some c.sample_variance_y := by
  refine ⟨?_, ?_, ?_, ?_, ?_⟩
  · simp [CoVariance.addChecked, CoVariance.add, CoVariance.add_innerChecked,
      CoVariance.add_inner, approx_from]
  · simp [CoVariance.add_innerChecked, CoVariance.add_inner, approx_from]
  · simp only [CoVariance.sample_covarianceChecked, CoVariance.sample_covariance,
      approx_from]
    split <;> rfl
  · simp only [CoVariance.sample_variance_xChecked, CoVariance.sample_variance_x,
      approx_from]
    split <;> rfl
  · simp only [CoVariance.sample_variance_yChecked, CoVariance.sample_variance_y,
      approx_from]
    split <;> rfl

/-- C9: in every reachable state the two trackers hold the same count,
`add` preserves the equality from any state, and emptiness coincides
with a zero count. -/
theorem C9_lockstep (l : List (ℚ × ℚ)) (c : CoVariance) (x y : ℚ)
    (h : c.avg_x.n = c.avg_y.n) :
    (c.add x y).avg_x.n = (c.add x y).avg_y.n ∧
    (addAll CoVariance.new l).avg_x.n = (addAll CoVariance.new l).avg_y.n ∧
    ((addAll CoVariance.new l).is_empty = true ↔
      (addAll CoVariance.new l).len = 0) := by
  obtain ⟨hnx, hny, _, _, _, _, _⟩ := addAll_state l
  refine ⟨?_, ?_, ?_⟩
  · simp [CoVariance.add, CoVariance.increment, CoVariance.add_inner,
      Mean.increment, Mean.add_inner, h]
  · rw [hnx, hny]
  · simp [CoVariance.is_empty, Mean.is_empty, CoVariance.len, Mean.len,
      hnx, hny]

/-- Witness for C9 at the state reached by one sample and the list
[(1,2)]. -/
theorem C9_lockstep_witness :
    (CoVariance.new.add 0 0).avg_x.n = (CoVariance.new.add 0 0).avg_y.n ∧
    (addAll CoVariance.new [(1, 2)]).avg_x.n
        = (addAll CoVariance.new [(1, 2)]).avg_y.n ∧
    ((addAll CoVariance.new [(1, 2)]).is_empty = true ↔
      (addAll CoVariance.new [(1, 2)]).len = 0) :=
  C9_lockstep [(1, 2)] CoVariance.new 0 0 rfl

/-- C10: each `add` can only increase the two squared-deviation
accumulators, and in every reachable state both sample variances are
nonnegative. -/
theorem C10_sq_dev_monotone_nonneg (c : CoVariance) (x y : ℚ)
    (l : List (ℚ × ℚ)) :
    (c.sum_2_x ≤ (c.add x y).sum_2_x ∧ c.sum_2_y ≤ (c.add x y).sum_2_y) ∧
    (0 ≤ (addAll CoVariance.new l).sample_variance_x ∧
     0 ≤ (addAll CoVariance.new l).sample_variance_y) := by
  have hmono : ∀ (d : CoVariance) (u v : ℚ),
      d.sum_2_x ≤ (d.add u v).sum_2_x ∧ d.sum_2_y ≤ (d.add u v).sum_2_y := by
    intro d u v
    have h0 : (0 : ℚ) ≤ (d.avg_x.n : ℚ) := Nat.cast_nonneg _
    simp only [CoVariance.add, CoVariance.increment, CoVariance.add_inner,
      Mean.increment, Mean.add_inner, Mean.mean, Mean.len]
    push_cast
    constructor <;>
    · refine le_add_of_nonneg_right ?_
      refine mul_nonneg (mul_self_nonneg _) ?_
      nlinarith
  have hreach : ∀ (t : List (ℚ × ℚ)) (d : CoVariance),
      0 ≤ d.sum_2_x → 0 ≤ d.sum_2_y →
      0 ≤ (addAll d t).sum_2_x ∧ 0 ≤ (addAll d t).sum_2_y := by
    intro t
    induction t with
    | nil => intro d h1 h2; exact ⟨h1, h2⟩
    | cons q r ih =>
        intro d h1 h2
        have hm := hmono d q.1 q.2
        exact ih (d.add q.1 q.2) (h1.trans hm.1) (h2.trans hm.2)
  have hr := hreach l CoVariance.new (le_refl 0) (le_refl 0)
  refine ⟨hmono c x y, ?_, ?_⟩
  · simp only [CoVariance.sample_variance_x, Mean.len]
    split
    · exact le_refl 0
    · exact div_nonneg hr.1 (Nat.cast_nonneg _)
  · simp only [CoVariance.sample_variance_y, Mean.len]
    split
    · exact le_refl 0
    · exact div_nonneg hr.2 (Nat.cast_nonneg _)
